import Mathlib

/-!
Shallow embedding of the permify_gorm role repository.

The relational store is a record of lists of rows (roles, the user_roles
join table, the role_permissions join table, a permissions table used by
the eager-load variants).  Every repository operation from
`repositories/role_repository.go` is translated to a pure function on
this store; GORM query chains become filters, counts and list
transformations; fallible steps return `Except`, with injected faults
standing for store errors.
-/

namespace PermifyGorm

/-- A row of the roles table (`models.Role`). -/
structure Role where
  id : Nat
  name : String
  guardName : String
  deriving Repr, DecidableEq

/-- A row of the permissions table (`models.Permission`). -/
structure Permission where
  id : Nat
  name : String
  guardName : String
  deriving Repr, DecidableEq

/-- A row of the `user_roles` join table (`pivot.UserRoles`). -/
structure UserRoles where
  userID : Nat
  roleID : Nat
  deriving Repr, DecidableEq

/-- A row of the `role_permissions` join table. -/
structure RolePermissions where
  roleID : Nat
  permissionID : Nat
  deriving Repr, DecidableEq

/-- The relational store backing the repository.  `nextID` models the
auto-increment primary-key counter of the roles table. -/
structure Store where
  roles : List Role
  permissions : List Permission
  userRoles : List UserRoles
  rolePermissions : List RolePermissions
  nextID : Nat
  deriving Repr, DecidableEq

/-- Errors surfaced by the store (GORM errors). -/
inductive Err where
  | recordNotFound
  | storeError (msg : String)
  deriving Repr, DecidableEq

/-- `collections.Role.IDs()`: the IDs of a role collection. -/
def roleIDs (roles : List Role) : List Nat :=
  roles.map Role.id

/-- `collections.Permission.IDs()`: the IDs of a permission collection. -/
def permissionIDs (permissions : List Permission) : List Nat :=
  permissions.map Permission.id

/-- The count query shared by the three permission checks:
`Table("role_permissions").Where("role_id IN (?)", rids).Where("permission_id IN (?)", pids).Count(&count)`. -/
def countRolePermissions (db : Store) (rids : List Nat) (pids : List Nat) : Nat :=
  (db.rolePermissions.filter
    (fun rp => rids.contains rp.roleID && pids.contains rp.permissionID)).length

/-- `RoleRepository.HasPermission`: count rows of `role_permissions` with
`role_id IN roles.IDs()` and `permission_id = permission.ID`; result is
`count > 0`. -/
def HasPermission (db : Store) (roles : List Role) (permission : Permission) : Bool :=
  let count :=
    (db.rolePermissions.filter
      (fun rp => (roleIDs roles).contains rp.roleID && rp.permissionID == permission.id)).length
  decide (0 < count)

/-- `RoleRepository.HasAllPermissions`: count rows of `role_permissions`
with `role_id IN roles.IDs()` and `permission_id IN permissions.IDs()`;
result is `roles.Len()*permissions.Len() == count`. -/
def HasAllPermissions (db : Store) (roles : List Role) (permissions : List Permission) : Bool :=
  let count := countRolePermissions db (roleIDs roles) (permissionIDs permissions)
  roles.length * permissions.length == count

/-- `RoleRepository.HasAnyPermissions`: same count query as
`HasAllPermissions`; result is `count > 0`. -/
def HasAnyPermissions (db : Store) (roles : List Role) (permissions : List Permission) : Bool :=
  let count := countRolePermissions db (roleIDs roles) (permissionIDs permissions)
  decide (0 < count)

/-! ## Pagination -/

/-- `utils.Pagination`: a page number and a page size.
Modelled from the spec: `utils.Pagination` with its `GetPage`/`GetLimit`
accessors is not under src; the spec describes it as a (page, limit)
pair. -/
structure Pagination where
  page : Int
  limit : Int
  deriving Repr, DecidableEq

/-- Modelled from the spec: `helpers.OffsetCal` is not under src; the spec
says the offset is `(page-1) * limit`, clamped to non-negative. -/
def OffsetCal (page limit : Int) : Int :=
  max 0 ((page - 1) * limit)

/-- The offset/limit state a GORM scope manipulates on a query.
`limit = none` means no LIMIT clause (all rows). -/
structure Query where
  offset : Int
  limit : Option Int
  deriving Repr, DecidableEq

/-- A fresh query: no offset, no limit. -/
def Query.init : Query := ⟨0, none⟩

/-- `GormPagination.ToPaginate`: `db.Offset(OffsetCal(page, limit)).Limit(limit)`. -/
def ToPaginate (p : Pagination) (q : Query) : Query :=
  { q with offset := OffsetCal p.page p.limit, limit := some p.limit }

/-- `RoleRepository.paginate`: apply the pager's scope only when the pager
is non-nil; a nil pager leaves the query unmodified. -/
def paginate (pagination : Option Pagination) (q : Query) : Query :=
  match pagination with
  | none => q
  | some p => ToPaginate p q

/-- Execute a query's offset/limit against the list of matching rows
(SQL `OFFSET`/`LIMIT` semantics; a negative limit means no limit, as in
GORM). -/
def Query.run (q : Query) (rows : List α) : List α :=
  let afterOffset := rows.drop q.offset.toNat
  match q.limit with
  | none => afterOffset
  | some l => if l < 0 then afterOffset else afterOffset.take l.toNat

/-! ## ID fetch operations -/

/-- `RoleRepository.GetRoleIDs`: `Model(Role).Count(&totalCount)` then
`.Scopes(paginate(pagination)).Pluck("roles.id", &roleIDs)`.  The count
query runs on the conditions built before the pagination scope is added,
so it counts every row. -/
def GetRoleIDs (db : Store) (pagination : Option Pagination) : List Nat × Nat :=
  let matching := db.roles.map Role.id
  let totalCount := matching.length
  let ids := (paginate pagination Query.init).run matching
  (ids, totalCount)

/-- `RoleRepository.GetRoleIDsOfUser`: filter `user_roles` by
`user_id = userID`, count all matches, then pluck the paginated
`role_id` page. -/
def GetRoleIDsOfUser (db : Store) (userID : Nat) (pagination : Option Pagination) :
    List Nat × Nat :=
  let matching := (db.userRoles.filter (fun ur => ur.userID == userID)).map UserRoles.roleID
  let totalCount := matching.length
  let ids := (paginate pagination Query.init).run matching
  (ids, totalCount)

/-- `RoleRepository.GetRoleIDsOfPermission`: filter `role_permissions` by
`permission_id = permissionID`, count all matches, then pluck the
paginated `role_id` page. -/
def GetRoleIDsOfPermission (db : Store) (permissionID : Nat) (pagination : Option Pagination) :
    List Nat × Nat :=
  let matching :=
    (db.rolePermissions.filter (fun rp => rp.permissionID == permissionID)).map
      RolePermissions.roleID
  let totalCount := matching.length
  let ids := (paginate pagination Query.init).run matching
  (ids, totalCount)

/-! ## Lookup operations -/

/-- `RoleRepository.GetRoleByID`: `First(&role, "roles.id = ?", ID)` —
the first matching row, or `ErrRecordNotFound`. -/
def GetRoleByID (db : Store) (ID : Nat) : Except Err Role :=
  match db.roles.find? (fun r => r.id == ID) with
  | some r => .ok r
  | none => .error .recordNotFound

/-- `RoleRepository.GetRoleByGuardName`: first row with the guard name,
or `ErrRecordNotFound`. -/
def GetRoleByGuardName (db : Store) (guardName : String) : Except Err Role :=
  match db.roles.find? (fun r => r.guardName == guardName) with
  | some r => .ok r
  | none => .error .recordNotFound

/-- `Preload("Permissions")`: the permissions joined to a role through
the `role_permissions` table. -/
def preloadPermissions (db : Store) (r : Role) : List Permission :=
  db.permissions.filter
    (fun p => db.rolePermissions.any (fun rp => rp.roleID == r.id && rp.permissionID == p.id))

/-- `RoleRepository.GetRoleByIDWithPermissions`: like `GetRoleByID`, with
the role's permissions eagerly loaded. -/
def GetRoleByIDWithPermissions (db : Store) (ID : Nat) :
    Except Err (Role × List Permission) :=
  match db.roles.find? (fun r => r.id == ID) with
  | some r => .ok (r, preloadPermissions db r)
  | none => .error .recordNotFound

/-- `RoleRepository.GetRoles`: `Where("roles.id IN (?)", IDs).Find(&roles)`
— all rows whose id is among the requested IDs; `Find` reports no error
when some IDs match nothing. -/
def GetRoles (db : Store) (IDs : List Nat) : Except Err (List Role) :=
  .ok (db.roles.filter (fun r => IDs.contains r.id))

/-- `RoleRepository.GetRolesWithPermissions`: `GetRoles` with each row's
permissions eagerly loaded. -/
def GetRolesWithPermissions (db : Store) (IDs : List Nat) :
    Except Err (List (Role × List Permission)) :=
  .ok ((db.roles.filter (fun r => IDs.contains r.id)).map
        (fun r => (r, preloadPermissions db r)))

/-- `RoleRepository.GetRolesByGuardNames`: all rows whose guard name is
among the requested names; no error on partial miss. -/
def GetRolesByGuardNames (db : Store) (guardNames : List String) : Except Err (List Role) :=
  .ok (db.roles.filter (fun r => guardNames.contains r.guardName))

/-- `RoleRepository.GetRolesByGuardNamesWithPermissions`:
`GetRolesByGuardNames` with each row's permissions eagerly loaded. -/
def GetRolesByGuardNamesWithPermissions (db : Store) (guardNames : List String) :
    Except Err (List (Role × List Permission)) :=
  .ok ((db.roles.filter (fun r => guardNames.contains r.guardName)).map
        (fun r => (r, preloadPermissions db r)))

/-! ## FirstOrCreate, Delete, Migrate -/

/-- `RoleRepository.FirstOrCreate`:
`Where(Role{GuardName: role.GuardName}).FirstOrCreate(role)` — look up
the first row whose guard name matches (only the guard name appears in
the `Where` condition); if none exists, insert the given role with a
fresh auto-increment id.  Returns the resulting role value (GORM writes
it back into `role`) and the new store. -/
def FirstOrCreate (db : Store) (role : Role) : Role × Store :=
  match db.roles.find? (fun r => r.guardName == role.guardName) with
  | some r => (r, db)
  | none =>
      let created := { role with id := db.nextID }
      (created, { db with roles := db.roles ++ [created], nextID := db.nextID + 1 })

/-- Fault injection for the two statements inside `Delete`'s
transaction. -/
structure DeleteFaults where
  failUserRoles : Bool
  failRole : Bool
  deriving Repr, DecidableEq

/-- First statement of `Delete`'s transaction:
`tx.Where("user_roles.role_id = ?", role.ID).Delete(&pivot.UserRoles{})`. -/
def deleteUserRolesStep (fail : Bool) (rid : Nat) (db : Store) : Except Err Store :=
  if fail then .error (.storeError "delete user_roles failed")
  else .ok { db with userRoles := db.userRoles.filter (fun ur => ur.roleID != rid) }

/-- Second statement of `Delete`'s transaction: `tx.Delete(role)` —
delete the role row by primary key. -/
def deleteRoleStep (fail : Bool) (rid : Nat) (db : Store) : Except Err Store :=
  if fail then .error (.storeError "delete role failed")
  else .ok { db with roles := db.roles.filter (fun r => r.id != rid) }

/-- `RoleRepository.Delete`: run both delete statements inside
`Database.Transaction`; if either statement errors, the transaction is
rolled back (the store is left as it was) and the error is returned;
otherwise the transaction commits. -/
def Delete (faults : DeleteFaults) (role : Role) (db : Store) : Except Err Unit × Store :=
  let txBody : Except Err Store :=
    match deleteUserRolesStep faults.failUserRoles role.id db with
    | .error e => .error e
    | .ok db1 =>
        match deleteRoleStep faults.failRole role.id db1 with
        | .error e => .error e
        | .ok db2 => .ok db2
  match txBody with
  | .ok db2 => (.ok (), db2)
  | .error e => (.error e, db)

/-- Which tables have been created by migration. -/
structure MigrateState where
  rolesTable : Bool
  userRolesTable : Bool
  deriving Repr, DecidableEq

/-- `AutoMigrate(models.Role{})`: creates the roles table unless the
injected fault fires. -/
def autoMigrateRole (fault : Option Err) (s : MigrateState) : Option Err × MigrateState :=
  match fault with
  | some e => (some e, s)
  | none => (none, { s with rolesTable := true })

/-- `AutoMigrate(pivot.UserRoles{})`: creates the user_roles table unless
the injected fault fires. -/
def autoMigrateUserRoles (fault : Option Err) (s : MigrateState) : Option Err × MigrateState :=
  match fault with
  | some e => (some e, s)
  | none => (none, { s with userRolesTable := true })

/-- `RoleRepository.Migrate`: `err = AutoMigrate(Role{});
err = AutoMigrate(UserRoles{}); return` — the second assignment
overwrites the first, so only the second call's error is returned. -/
def Migrate (faultRole faultUserRoles : Option Err) (s : MigrateState) :
    Option Err × MigrateState :=
  let (err, s) := autoMigrateRole faultRole s
  let (err, s) := autoMigrateUserRoles faultUserRoles s
  (err, s)

/-! ## Sample data used by witnesses -/

/-- A small store: role 1 (editor) holds exactly permission 1, role 2
(viewer) holds exactly permission 2; user 7 has role 1. -/
def sampleDb : Store :=
  { roles := [⟨1, "Editor", "editor"⟩, ⟨2, "Viewer", "viewer"⟩],
    permissions := [⟨1, "P1", "p1"⟩, ⟨2, "P2", "p2"⟩],
    userRoles := [⟨7, 1⟩],
    rolePermissions := [⟨1, 1⟩, ⟨2, 2⟩],
    nextID := 3 }

/-! ## Claims -/

/-- C1: `HasAllPermissions(R, P)` is true iff the number of
`role_permissions` rows with `role_id` among R's IDs and `permission_id`
among P's IDs equals `|R| × |P|`; in the scenario where role 1 holds
exactly permission 1 and role 2 holds exactly permission 2,
`HasAllPermissions({1,2}, {p1,p2})` is false (count 2 ≠ 4). -/
theorem hasAllPermissions_cross_count :
    (∀ (db : Store) (roles : List Role) (permissions : List Permission),
        HasAllPermissions db roles permissions = true ↔
          countRolePermissions db (roleIDs roles) (permissionIDs permissions) =
            roles.length * permissions.length) ∧
    HasAllPermissions sampleDb [⟨1, "Editor", "editor"⟩, ⟨2, "Viewer", "viewer"⟩]
      [⟨1, "P1", "p1"⟩, ⟨2, "P2", "p2"⟩] = false := by
  constructor
  · intro db roles permissions
    simp only [HasAllPermissions, beq_iff_eq]
    exact eq_comm
  · decide

/-- C3: `HasPermission(R, p)` is true iff some `role_permissions` row
links a role of R to p (count > 0); with a singleton collection {A} it is
true iff the join table contains the pair (A.id, p.id). -/
theorem hasPermission_iff_pair :
    (∀ (db : Store) (roles : List Role) (p : Permission),
        HasPermission db roles p = true ↔
          ∃ rp ∈ db.rolePermissions, rp.roleID ∈ roleIDs roles ∧ rp.permissionID = p.id) ∧
    (∀ (db : Store) (A : Role) (p : Permission),
        HasPermission db [A] p = true ↔
          (⟨A.id, p.id⟩ : RolePermissions) ∈ db.rolePermissions) := by
  have hmain : ∀ (db : Store) (roles : List Role) (p : Permission),
      HasPermission db roles p = true ↔
        ∃ rp ∈ db.rolePermissions, rp.roleID ∈ roleIDs roles ∧ rp.permissionID = p.id := by
    intro db roles p
    simp [HasPermission, List.length_pos_iff_exists_mem, List.mem_filter]
  refine ⟨hmain, ?_⟩
  intro db A p
  rw [hmain]
  constructor
  · rintro ⟨rp, hmem, hrid, hpid⟩
    have : rp = ⟨A.id, p.id⟩ := by
      cases rp
      simp only [roleIDs, List.map_cons, List.map_nil, List.mem_singleton] at hrid
      simp_all
    rwa [this] at hmem
  · intro h
    exact ⟨⟨A.id, p.id⟩, h, by simp [roleIDs], rfl⟩

/-- C4: for page ≥ 1 and limit ≥ 1 the pagination scope produces
offset = (page-1) × limit (the non-negativity clamp is inactive) and
keeps the given limit; page = 1 gives offset 0. -/
theorem toPaginate_offset (page limit : Int) (q : Query) (hp : 1 ≤ page) (hl : 1 ≤ limit) :
    (ToPaginate ⟨page, limit⟩ q).offset = (page - 1) * limit ∧
    (ToPaginate ⟨page, limit⟩ q).limit = some limit ∧
    (page = 1 → (ToPaginate ⟨page, limit⟩ q).offset = 0) := by
  have hnn : 0 ≤ (page - 1) * limit := mul_nonneg (by linarith) (by linarith)
  refine ⟨?_, rfl, ?_⟩
  · simp [ToPaginate, OffsetCal, max_eq_right hnn]
  · intro h1
    simp [ToPaginate, OffsetCal, h1]

/-- Witness for C4 at page 2, limit 5. -/
theorem toPaginate_offset_witness :
    (ToPaginate ⟨2, 5⟩ Query.init).offset = (2 - 1) * 5 ∧
    (ToPaginate ⟨2, 5⟩ Query.init).limit = some 5 ∧
    ((2 : Int) = 1 → (ToPaginate ⟨2, 5⟩ Query.init).offset = 0) :=
  toPaginate_offset 2 5 Query.init (by decide) (by decide)

/-- C9: `Delete` never touches the `role_permissions` table: whatever the
faults and however the transaction ends, the store's role_permissions
rows are unchanged. -/
theorem delete_frame_rolePermissions (faults : DeleteFaults) (role : Role) (db : Store) :
    ((Delete faults role db).2).rolePermissions = db.rolePermissions := by
  cases faults with
  | mk fu fr => cases fu <;> cases fr <;> simp [Delete, deleteUserRolesStep, deleteRoleStep]

/-- C10: `Migrate` returns only the second `AutoMigrate` call's error;
a failure migrating the Role table followed by a successful UserRoles
migration yields nil, silently discarding the first error. -/
theorem migrate_returns_second_error :
    (∀ (e : Err) (s : MigrateState), (Migrate (some e) none s).1 = none) ∧
    (∀ (f1 f2 : Option Err) (s : MigrateState), (Migrate f1 f2 s).1 = f2) := by
  constructor
  · intro e s; rfl
  · intro f1 f2 s; cases f1 <;> cases f2 <;> rfl

/-- C2: `Delete` removes the role's `user_roles` rows and then the role
row inside one transaction; if either statement fails, the error is
returned and the store is exactly as before the call (no partial
deletion); on success both removals are committed. -/
theorem delete_transactional (faults : DeleteFaults) (role : Role) (db : Store) :
    ((faults.failUserRoles = true ∨ faults.failRole = true) →
        ∃ e, Delete faults role db = (.error e, db)) ∧
    (faults.failUserRoles = false → faults.failRole = false →
        Delete faults role db =
          (.ok (), { db with
              userRoles := db.userRoles.filter (fun ur => ur.roleID != role.id),
              roles := db.roles.filter (fun r => r.id != role.id) })) := by
  cases faults with
  | mk fu fr =>
      cases fu <;> cases fr <;>
        simp [Delete, deleteUserRolesStep, deleteRoleStep]

/-- Witness for C2: a faulted first statement returns an error and leaves
the sample store untouched; the fault-free run removes user 7's
assignment and the editor role row. -/
theorem delete_transactional_witness :
    (∃ e, Delete ⟨true, false⟩ ⟨1, "Editor", "editor"⟩ sampleDb = (.error e, sampleDb)) ∧
    Delete ⟨false, false⟩ ⟨1, "Editor", "editor"⟩ sampleDb =
      (.ok (), { sampleDb with userRoles := [], roles := [⟨2, "Viewer", "viewer"⟩] }) := by
  constructor
  · exact (delete_transactional ⟨true, false⟩ ⟨1, "Editor", "editor"⟩ sampleDb).1 (Or.inl rfl)
  · have h := (delete_transactional ⟨false, false⟩ ⟨1, "Editor", "editor"⟩ sampleDb).2 rfl rfl
    rw [h]
    rfl

/-- C5: a nil pager leaves the query unmodified, so the three ID-fetch
operations return every matching row; the absent pager is distinct from
every concrete pager, page 1 included, both as a query and in the rows
produced. -/
theorem paginate_nil_noop :
    (∀ q : Query, paginate none q = q) ∧
    (∀ db : Store, (GetRoleIDs db none).1 = db.roles.map Role.id) ∧
    (∀ (db : Store) (userID : Nat),
        (GetRoleIDsOfUser db userID none).1 =
          (db.userRoles.filter (fun ur => ur.userID == userID)).map UserRoles.roleID) ∧
    (∀ (db : Store) (permissionID : Nat),
        (GetRoleIDsOfPermission db permissionID none).1 =
          (db.rolePermissions.filter (fun rp => rp.permissionID == permissionID)).map
            RolePermissions.roleID) ∧
    (∀ p : Pagination, paginate (some p) Query.init ≠ paginate none Query.init) ∧
    (paginate (some ⟨1, 1⟩) Query.init).run [0, 1] ≠
      (paginate none Query.init).run ([0, 1] : List Nat) := by
  refine ⟨fun q => rfl, fun db => ?_, fun db u => ?_, fun db p => ?_, fun p h => ?_, by decide⟩
  · simp [GetRoleIDs, paginate, Query.run, Query.init]
  · simp [GetRoleIDsOfUser, paginate, Query.run, Query.init]
  · simp [GetRoleIDsOfPermission, paginate, Query.run, Query.init]
  · simpa [paginate, ToPaginate, Query.init] using congrArg Query.limit h

/-- C6: each of the three paginated ID retrievals reports the total
matching count computed before the pagination scope is applied, while the
returned IDs are the paginated page; on the sample store with page size 1
the total stays 2 while the page has 1 element. -/
theorem getRoleIDs_total_before_pagination :
    (∀ (db : Store) (pagination : Option Pagination),
        (GetRoleIDs db pagination).2 = (db.roles.map Role.id).length ∧
        (GetRoleIDs db pagination).1 =
          (paginate pagination Query.init).run (db.roles.map Role.id)) ∧
    (∀ (db : Store) (userID : Nat) (pagination : Option Pagination),
        (GetRoleIDsOfUser db userID pagination).2 =
          ((db.userRoles.filter (fun ur => ur.userID == userID)).map UserRoles.roleID).length ∧
        (GetRoleIDsOfUser db userID pagination).1 =
          (paginate pagination Query.init).run
            ((db.userRoles.filter (fun ur => ur.userID == userID)).map UserRoles.roleID)) ∧
    (∀ (db : Store) (permissionID : Nat) (pagination : Option Pagination),
        (GetRoleIDsOfPermission db permissionID pagination).2 =
          ((db.rolePermissions.filter (fun rp => rp.permissionID == permissionID)).map
            RolePermissions.roleID).length ∧
        (GetRoleIDsOfPermission db permissionID pagination).1 =
          (paginate pagination Query.init).run
            ((db.rolePermissions.filter (fun rp => rp.permissionID == permissionID)).map
              RolePermissions.roleID)) ∧
    ((GetRoleIDs sampleDb (some ⟨1, 1⟩)).2 = 2 ∧
      (GetRoleIDs sampleDb (some ⟨1, 1⟩)).1.length = 1) := by
  exact ⟨fun db p => ⟨rfl, rfl⟩, fun db u p => ⟨rfl, rfl⟩, fun db pid p => ⟨rfl, rfl⟩, by decide⟩

/-- A role appears in an eagerly loaded result exactly when it appears in
the underlying row list. -/
theorem mem_map_preload (db : Store) (l : List Role) (r : Role) :
    (∃ ps, (r, ps) ∈ l.map (fun x => (x, preloadPermissions db x))) ↔ r ∈ l := by
  constructor
  · rintro ⟨ps, hm⟩
    rcases List.mem_map.mp hm with ⟨a, ha, heq⟩
    have har : a = r := congrArg Prod.fst heq
    exact har ▸ ha
  · intro h
    exact ⟨preloadPermissions db r, List.mem_map.mpr ⟨r, h, rfl⟩⟩

/-- C7: the four batch lookups always succeed and return exactly the
requested identifiers that exist in the store (unmatched identifiers are
silently dropped), while the singular lookup fails with NotFound exactly
when no row matches. -/
theorem batch_lookups_lenient :
    (∀ (db : Store) (IDs : List Nat), ∃ rs, GetRoles db IDs = .ok rs ∧
        ∀ r : Role, r ∈ rs ↔ r ∈ db.roles ∧ r.id ∈ IDs) ∧
    (∀ (db : Store) (guardNames : List String),
        ∃ rs, GetRolesByGuardNames db guardNames = .ok rs ∧
          ∀ r : Role, r ∈ rs ↔ r ∈ db.roles ∧ r.guardName ∈ guardNames) ∧
    (∀ (db : Store) (IDs : List Nat), ∃ rs, GetRolesWithPermissions db IDs = .ok rs ∧
        ∀ r : Role, (∃ ps, (r, ps) ∈ rs) ↔ r ∈ db.roles ∧ r.id ∈ IDs) ∧
    (∀ (db : Store) (guardNames : List String),
        ∃ rs, GetRolesByGuardNamesWithPermissions db guardNames = .ok rs ∧
          ∀ r : Role, (∃ ps, (r, ps) ∈ rs) ↔ r ∈ db.roles ∧ r.guardName ∈ guardNames) ∧
    (∀ (db : Store) (ID : Nat),
        GetRoleByID db ID = .error Err.recordNotFound ↔ ∀ r ∈ db.roles, r.id ≠ ID) := by
  refine ⟨?_, ?_, ?_, ?_, ?_⟩
  · intro db IDs
    exact ⟨_, rfl, fun r => by simp [List.mem_filter]⟩
  · intro db gs
    exact ⟨_, rfl, fun r => by simp [List.mem_filter]⟩
  · intro db IDs
    refine ⟨_, rfl, fun r => ?_⟩
    rw [mem_map_preload]
    simp [List.mem_filter]
  · intro db gs
    refine ⟨_, rfl, fun r => ?_⟩
    rw [mem_map_preload]
    simp [List.mem_filter]
  · intro db ID
    rcases hf : db.roles.find? (fun r => r.id == ID) with _ | r
    · have hok : GetRoleByID db ID = .error Err.recordNotFound := by
        simp [GetRoleByID, hf]
      rw [List.find?_eq_none] at hf
      simp only [beq_iff_eq] at hf
      exact ⟨fun _ => hf, fun _ => hok⟩
    · have hok : GetRoleByID db ID = .ok r := by
        simp [GetRoleByID, hf]
      have hp := List.find?_some hf
      have hmem := List.mem_of_find?_eq_some hf
      rw [beq_iff_eq] at hp
      constructor
      · intro h
        rw [hok] at h
        exact Except.noConfusion h
      · intro hall
        exact absurd hp (hall r hmem)

/-- C8: find-or-create matches on the guard name only and is idempotent:
with the guard name initially absent, a second call with the same guard
name (and arbitrary other fields) changes nothing and returns the row
created by the first call, and exactly one row with that guard name is
stored. -/
theorem firstOrCreate_idempotent (db : Store) (role role2 : Role)
    (hguard : role2.guardName = role.guardName)
    (habsent : ∀ r ∈ db.roles, r.guardName ≠ role.guardName) :
    FirstOrCreate (FirstOrCreate db role).2 role2 = FirstOrCreate db role ∧
    ((FirstOrCreate db role).2.roles.filter
        (fun r => r.guardName == role.guardName)).length = 1 := by
  have hfind : db.roles.find? (fun r => r.guardName == role.guardName) = none := by
    rw [List.find?_eq_none]
    intro x hx
    simpa using habsent x hx
  have h1 : FirstOrCreate db role =
      ({ role with id := db.nextID },
        { db with roles := db.roles ++ [{ role with id := db.nextID }],
                  nextID := db.nextID + 1 }) := by
    simp [FirstOrCreate, hfind]
  have hfind2 : (db.roles ++ [{ role with id := db.nextID }]).find?
      (fun r => r.guardName == role2.guardName) = some { role with id := db.nextID } := by
    simp only [hguard, List.find?_append, hfind]
    simp
  constructor
  · rw [h1]
    show FirstOrCreate
      { db with roles := db.roles ++ [{ role with id := db.nextID }],
                nextID := db.nextID + 1 } role2 = _
    simp [FirstOrCreate, hfind2]
  · rw [h1]
    show ((db.roles ++ [{ role with id := db.nextID }]).filter
        (fun (r : Role) => r.guardName == role.guardName)).length = 1
    rw [List.filter_append]
    have hnil : db.roles.filter (fun r => r.guardName == role.guardName) = [] := by
      rw [List.filter_eq_nil_iff]
      intro a ha
      simpa using habsent a ha
    rw [hnil]
    simp

/-- Witness for C8: creating guard name "admin" twice in the sample store
(second time under a different display name) leaves one admin row and
returns the same role. -/
theorem firstOrCreate_idempotent_witness :
    FirstOrCreate (FirstOrCreate sampleDb ⟨0, "Admin", "admin"⟩).2 ⟨0, "Other", "admin"⟩ =
      FirstOrCreate sampleDb ⟨0, "Admin", "admin"⟩ ∧
    ((FirstOrCreate sampleDb ⟨0, "Admin", "admin"⟩).2.roles.filter
        (fun r => r.guardName == (⟨0, "Admin", "admin"⟩ : Role).guardName)).length = 1 :=
  firstOrCreate_idempotent sampleDb ⟨0, "Admin", "admin"⟩ ⟨0, "Other", "admin"⟩ rfl
    (by decide)

end PermifyGorm
